import Mathlib

/-!
# The openstatus checker: region dispatch, retry and telemetry persistence

A shallow embedding of `apps/checker/handlers/ping.go` (`Handler.PingRegionHandler`)
and `apps/checker/pkg/timescale/client.go` (the three insert operations), with the
properties of the specification stated over it.

Conventions of the embedding.

* Go integers are `Int`; a narrowing conversion (`int16(x)`, `int32(x)`) keeps the
  low bits in two's complement and is written out with `%`.
* A Go pointer (`*int16`, `*string`) is an `Option`: `none` is `nil`.
* A Go map is an `Option` of an association list: `none` is the `nil` map.
* Everything outside the process is an explicit environment: the probe
  (`checker.Http`), the telemetry client behind the `timescale.Client` interface,
  the clock-driven exponential backoff, `encoding/json` and `db.Exec`.
  The k-th call to such a collaborator is answered by the environment at index k.
-/

namespace Checker

/-! ## Go errors -/

/-- A Go `error` value, as far as `errors.As` and `%w` distinguish them:
a plain error, a `*backoff.PermanentError` around an error, or an error
that wraps another one (`fmt.Errorf` with `%w`). -/
inductive GoError where
  | plain (msg : String)
  | permanent (err : GoError)
  | wrap (msg : String) (err : GoError)
  deriving DecidableEq

namespace GoError

/-- The method `Error()`: `PermanentError.Error` returns the message of the
error inside, a `%w` wrapper carries its own formatted message. -/
def Error : GoError → String
  | plain msg => msg
  | permanent err => err.Error
  | wrap msg _ => msg

/-- The test `errors.As(err, &permanent)` of `backoff.Retry`, returning
`permanent.Err` when a `*PermanentError` is found along the `Unwrap` chain. -/
def asPermanent : GoError → Option GoError
  | plain _ => none
  | permanent err => some err
  | wrap _ err => err.asPermanent

end GoError

/-- The call `fmt.Errorf("unable to ping: %w", err)`. -/
def Errorf_unable_to_ping (err : GoError) : GoError :=
  GoError.wrap ("unable to ping: " ++ err.Error) err

/-! ## `github.com/cenkalti/backoff/v4`: `WithMaxRetries` and `Retry` -/

/-- The struct `backOffTries` built by `backoff.WithMaxRetries(delegate, max)`.
The delegate here is the `ExponentialBackOff`, whose answers depend on the wall
clock; `delegateCalls` counts the calls made to it so far. -/
structure backOffTries where
  maxTries : Nat
  numTries : Nat
  delegateCalls : Nat
  deriving DecidableEq

/-- The function `backoff.WithMaxRetries(b, max)`. -/
def WithMaxRetries (max : Nat) : backOffTries :=
  { maxTries := max, numTries := 0, delegateCalls := 0 }

/-- The method `(*backOffTries).Reset`, called by `Retry` before its loop. -/
def backOffTries.Reset (b : backOffTries) : backOffTries :=
  { b with numTries := 0 }

/-- The method `(*backOffTries).NextBackOff`: `none` is `backoff.Stop`, `some d`
a pause of `d`. `delegate k` is the answer of the k-th call to the delegate's
`NextBackOff`.
```
if b.maxTries == 0 { return Stop }
if b.maxTries > 0 {
    if b.maxTries <= b.numTries { return Stop }
    b.numTries++
}
return b.delegate.NextBackOff()
``` -/
def backOffTries.NextBackOff (delegate : Nat → Option Nat) (b : backOffTries) :
    Option Nat × backOffTries :=
  if b.maxTries = 0 then (none, b)
  else if b.maxTries ≤ b.numTries then (none, b)
  else (delegate b.delegateCalls,
        { b with numTries := b.numTries + 1, delegateCalls := b.delegateCalls + 1 })

/-- The loop of `backoff.Retry` (`RetryNotifyWithTimer` without notify, with the
background context, so that `ctx.Err()` is nil and `ctx.Done()` never fires).
The operation is a state transformer returning its error.
```
for {
    if err = operation(); err == nil { return nil }
    var permanent *PermanentError
    if errors.As(err, &permanent) { return permanent.Err }
    if next = b.NextBackOff(); next == Stop { return err }
    t.Start(next); <-t.C()
}
``` -/
def retryLoop {σ : Type} (operation : σ → Option GoError × σ) (delegate : Nat → Option Nat)
    (b : backOffTries) (s : σ) : Option GoError × σ :=
  match operation s with
  | (none, s1) => (none, s1)
  | (some err, s1) =>
    match err.asPermanent with
    | some inner => (some inner, s1)
    | none =>
      match hn : b.NextBackOff delegate with
      | (none, _) => (some err, s1)
      | (some _, b1) => retryLoop operation delegate b1 s1
termination_by b.maxTries - b.numTries
decreasing_by
  unfold backOffTries.NextBackOff at hn
  split at hn
  · simp at hn
  · split at hn
    · simp at hn
    · simp only [Prod.mk.injEq] at hn
      obtain ⟨_, h2⟩ := hn
      subst h2
      simp only
      omega

/-- The function `backoff.Retry(operation, b)`: reset the policy, then loop. -/
def Retry {σ : Type} (operation : σ → Option GoError × σ) (delegate : Nat → Option Nat)
    (b : backOffTries) (s : σ) : Option GoError × σ :=
  retryLoop operation delegate b.Reset s


/-! ## Conversions of the Go standard library -/

/-- The conversion `int16(x)` of a Go `int`: the low 16 bits, two's complement. -/
def int16 (x : Int) : Int := (x + 32768) % 65536 - 32768

/-- The conversion `int32(x)` of a Go `int64`: the low 32 bits, two's complement. -/
def int32 (x : Int) : Int := (x + 2147483648) % 4294967296 - 2147483648

/-- The call `strconv.FormatInt(i, 10)`: the decimal digits of `i`, after a
minus sign when `i` is negative. -/
def FormatInt (i : Int) : String :=
  (if i < 0 then "-" else "") ++ String.mk (Nat.toDigits 10 i.natAbs)

/-- A `time.Time` built by `time.UnixMilli(msec)`, kept as the milliseconds it
was built from (`time.UnixMilli` is one-to-one on `int64`). -/
structure Time where
  msec : Int
  deriving DecidableEq

/-- The call `time.UnixMilli(msec)`. -/
def UnixMilli (msec : Int) : Time := ⟨msec⟩

/-! ## Data model -/

/-- The struct `checker.Timing`: the ten phase timestamps read at
`ping.go:116-125`. -/
structure Timing where
  DnsStart : Int
  DnsDone : Int
  ConnectStart : Int
  ConnectDone : Int
  TlsHandshakeStart : Int
  TlsHandshakeDone : Int
  FirstByteStart : Int
  FirstByteDone : Int
  TransferStart : Int
  TransferDone : Int
  deriving DecidableEq

/-- The struct `checker.Response`, the probe result. Its declaration is in package
`checker`; the fields are those of the twin struct `Response` of `ping.go:30-42`,
which are also all the fields the handler reads or writes. -/
structure Response where
  Headers : Option (List (String × String))
  Error : String
  Body : String
  Region : String
  Tags : Option (List String)
  RequestId : Int
  WorkspaceId : Int
  Latency : Int
  Timestamp : Int
  Timing : Timing
  Status : Int
  deriving DecidableEq

/-- The struct `request.PingRequest`, the decoded body: the fields read by the
handler. -/
structure PingRequest where
  Headers : Option (List (String × String))
  URL : String
  Method : String
  Body : String
  RequestId : Int
  WorkspaceId : Int
  deriving DecidableEq

/-- The struct `request.HttpCheckerRequest`, the input of `checker.Http`, as
built at `ping.go:97-102`; a header is a struct of `Key` and `Value`. -/
structure HttpCheckerRequest where
  Headers : List (String × String)
  URL : String
  Method : String
  Body : String
  deriving DecidableEq

/-- A value of interface type `any` held by an assertions, targets or metadata
map. `chan` stands for the values `encoding/json` has no encoding for
(channels, functions, complex numbers). -/
inductive GoAny where
  | null
  | bool (b : Bool)
  | int (n : Int)
  | string (s : String)
  | chan
  deriving DecidableEq

/-- The struct `timescale.HttpResponse` (`client.go:24-40`). -/
structure HttpResponse where
  Timestamp : Int
  MonitorID : String
  WorkspaceID : String
  Region : String
  URL : String
  Latency : Int
  StatusCode : Option Int
  Error : Bool
  CronTimestamp : Int
  Message : Option String
  Timing : Option (List (String × Int))
  Headers : Option (List (String × String))
  Assertions : Option (List (String × GoAny))
  Body : Option String
  Trigger : String
  deriving DecidableEq

/-- The interface `timescale.Client` as the handler uses it: the error returned
by the k-th call of `InsertHttpResponse`, given the record passed. -/
structure Client where
  InsertHttpResponse : Nat → HttpResponse → Option GoError

/-- The struct `handlers.Handler` (`handler.go:9-14`). -/
structure Handler where
  TimescaleClient : Client
  Secret : String
  CloudProvider : String
  Region : String

/-- What lies outside the handler: the probe `checker.Http` (the result of its
k-th call on an input) and the `ExponentialBackOff` under `WithMaxRetries` (the
answer of its k-th `NextBackOff`, `none` for `Stop`). -/
structure World where
  Http : Nat → HttpCheckerRequest → Except GoError Response
  NextBackOff : Nat → Option Nat

/-- What the handler reads from its `*gin.Context`: the path parameter, the
`Authorization` header (`none` when the request has none) and the outcome of
`c.ShouldBindJSON(&req)` (`none` when the body does not decode). -/
structure Request where
  region : String
  Authorization : Option String
  body : Option PingRequest
  deriving DecidableEq

/-- The call `c.GetHeader("Authorization")`: the empty string when the header
is missing. -/
def Request.GetHeader (c : Request) : String := c.Authorization.getD ""

/-- The payload written to the caller. -/
inductive Payload where
  | text (s : String)
  | H (fields : List (String × String))
  | result (res : Response)
  deriving DecidableEq

/-- The HTTP reply: status, the headers set with `c.Header`, payload. -/
structure Reply where
  status : Nat
  headers : List (String × String)
  payload : Payload
  deriving DecidableEq

/-- The mutable state of one request while the unit of work runs: the captured
variable `res`, the calls made so far to `checker.Http` and to
`InsertHttpResponse`, and the error log. -/
structure OpState where
  res : Response
  probes : List HttpCheckerRequest
  inserts : List HttpResponse
  log : List String
  deriving DecidableEq

/-- The zero value of `checker.Response` (`var res checker.Response`). -/
def Response.zero : Response :=
  { Headers := none, Error := "", Body := "", Region := "", Tags := none, RequestId := 0,
    WorkspaceId := 0, Latency := 0, Timestamp := 0,
    Timing := ⟨0, 0, 0, 0, 0, 0, 0, 0, 0, 0⟩, Status := 0 }

/-- The state in which `PingRegionHandler` starts its unit of work. -/
def OpState.start : OpState :=
  { res := Response.zero, probes := [], inserts := [], log := [] }

/-- The outcome of one request: the reply and everything the handler did on the
way. -/
structure Outcome where
  reply : Reply
  probes : List HttpCheckerRequest
  inserts : List HttpResponse
  stdout : List String
  log : List String
  deriving DecidableEq

/-! ## `handlers/ping.go` -/

/-- The input of the probe, `ping.go:85-102`. The headers come in the order in
which the map is iterated, here the order of the association list. -/
def input (req : PingRequest) : HttpCheckerRequest :=
  { Headers := (req.Headers.getD []).map fun kv => (kv.1, kv.2)
    URL := req.URL
    Method := req.Method
    Body := req.Body }

/-- The map `timingMap` of `ping.go:115-125`. -/
def timingMap (t : Timing) : List (String × Int) :=
  [("dnsStart", t.DnsStart), ("dnsDone", t.DnsDone),
   ("connectStart", t.ConnectStart), ("connectDone", t.ConnectDone),
   ("tlsHandshakeStart", t.TlsHandshakeStart), ("tlsHandshakeDone", t.TlsHandshakeDone),
   ("firstByteStart", t.FirstByteStart), ("firstByteDone", t.FirstByteDone),
   ("transferStart", t.TransferStart), ("transferDone", t.TransferDone)]

/-- The telemetry record `data` of `ping.go:127-153`. -/
def telemetry (h : Handler) (req : PingRequest) (r : Response) : HttpResponse :=
  { Timestamp := r.Timestamp
    MonitorID := FormatInt req.RequestId
    WorkspaceID := FormatInt req.WorkspaceId
    Region := h.Region
    URL := req.URL
    Latency := int32 r.Latency
    StatusCode := if r.Status ≠ 0 then some (int16 r.Status) else none
    Error := decide (r.Error ≠ "")
    CronTimestamp := r.Timestamp
    Message := none
    Timing := some (timingMap r.Timing)
    Headers := r.Headers
    Assertions := none
    Body := if r.Body ≠ "" then some r.Body else none
    Trigger := "api" }

/-- The closure `op` of `ping.go:84-161`, the unit of work handed to
`backoff.Retry`. -/
def op (h : Handler) (w : World) (req : PingRequest) (s : OpState) :
    Option GoError × OpState :=
  let s1 := { s with probes := s.probes ++ [input req] }
  match w.Http s.probes.length (input req) with
  | .error err => (some (Errorf_unable_to_ping err), s1)
  | .ok r =>
    let s2 := { s1 with res := { r with Region := h.Region } }
    if req.RequestId ≠ 0 then
      let data := telemetry h req r
      let s3 := { s2 with inserts := s2.inserts ++ [data] }
      match h.TimescaleClient.InsertHttpResponse s2.inserts.length data with
      | some _ => (none, { s3 with log := s3.log ++ ["failed to send event to TimescaleDB"] })
      | none => (none, s3)
    else (none, s2)

/-- The method `Handler.PingRegionHandler` of `ping.go:44-169`. -/
def PingRegionHandler (h : Handler) (w : World) (c : Request) : Outcome :=
  if c.region = "" then
    { reply := ⟨400, [], .text "region is required"⟩
      probes := [], inserts := [], stdout := [], log := [] }
  else
    let stdout := ["Start of /ping/" ++ c.region ++ "\n"]
    if c.GetHeader ≠ "Basic " ++ h.Secret then
      { reply := ⟨401, [], .H [("error", "unauthorized")]⟩
        probes := [], inserts := [], stdout := stdout, log := [] }
    else if h.CloudProvider = "fly" ∧ c.region ≠ h.Region then
      { reply := ⟨202, [("fly-replay", "region=" ++ c.region)],
                  .text ("Forwarding request to " ++ c.region)⟩
        probes := [], inserts := [], stdout := stdout, log := [] }
    else
      match c.body with
      | none =>
        { reply := ⟨400, [], .H [("error", "invalid request")]⟩
          probes := [], inserts := [], stdout := stdout
          log := ["failed to decode checker request"] }
      | some req =>
        match Retry (op h w req) w.NextBackOff (WithMaxRetries 3) OpState.start with
        | (some _, s) =>
          { reply := ⟨200, [], .H [("message", "url not reachable")]⟩
            probes := s.probes, inserts := s.inserts, stdout := stdout, log := s.log }
        | (none, s) =>
          { reply := ⟨200, [], .result s.res⟩
            probes := s.probes, inserts := s.inserts, stdout := stdout, log := s.log }

/-! ## `pkg/timescale/client.go` -/

/-- The function `json.Marshal` of `encoding/json` at the three map types the
client encodes: the text, or the encoder's error. -/
structure Encoder where
  MarshalInt64Map : List (String × Int) → Except GoError String
  MarshalStringMap : List (String × String) → Except GoError String
  MarshalAnyMap : List (String × GoAny) → Except GoError String

/-- A value handed to `db.Exec` as an argument of the statement, with its Go
type. A nil pointer is the SQL null. -/
inductive SqlArg where
  | time (t : Time)
  | string (s : String)
  | int (n : Int)
  | int32 (n : Int)
  | int64 (n : Int)
  | bool (b : Bool)
  | int16Ptr (p : Option Int)
  | stringPtr (p : Option String)
  deriving DecidableEq

/-- One call of `db.Exec`: the table and the columns of the `INSERT`, and the
arguments `$1, $2, ...` in the order of the columns. -/
structure Statement where
  table : String
  columns : List String
  args : List SqlArg
  deriving DecidableEq

/-- The pattern that `client.go` repeats for each nested map
(`client.go:81-89` and its four siblings):
```
var timingJSON *string
if data.Timing != nil {
    timingBytes, err := json.Marshal(data.Timing)
    if err != nil { return fmt.Errorf("failed to marshal timing: %w", err) }
    timingStr := string(timingBytes)
    timingJSON = &timingStr
}
``` -/
def marshalMap {α : Type} (marshal : α → Except GoError String) (what : String)
    (m : Option α) : Except GoError (Option String) :=
  match m with
  | none => .ok none
  | some v =>
    match marshal v with
    | .error err => .error (GoError.wrap ("failed to marshal " ++ what ++ ": " ++ err.Error) err)
    | .ok text => .ok (some text)

/-- The statement of `client.go:113-139`: the trigger with its default, and the
`db.Exec` call with its fifteen arguments. -/
def httpStatement (data : HttpResponse) (timingJSON headersJSON assertionsJSON : Option String) :
    Statement :=
  let trigger := if data.Trigger = "" then "cron" else data.Trigger
  { table := "http_responses"
    columns := ["time", "monitor_id", "workspace_id", "region", "url", "latency",
      "status_code", "error", "cron_timestamp", "message", "timing",
      "headers", "assertions", "body", "trigger"]
    args := [.time (UnixMilli data.Timestamp), .string data.MonitorID,
      .string data.WorkspaceID, .string data.Region, .string data.URL,
      .int32 data.Latency, .int16Ptr data.StatusCode, .bool data.Error,
      .int64 data.CronTimestamp, .stringPtr data.Message, .stringPtr timingJSON,
      .stringPtr headersJSON, .stringPtr assertionsJSON, .stringPtr data.Body,
      .string trigger] }

/-- The method `(*client).InsertHttpResponse` of `client.go:79-142`: the error
returned and the statements executed. `db` is `c.db.Exec`. -/
def client.InsertHttpResponse (json : Encoder) (db : Statement → Option GoError)
    (data : HttpResponse) : Option GoError × List Statement :=
  match marshalMap json.MarshalInt64Map "timing" data.Timing with
  | .error err => (some err, [])
  | .ok timingJSON =>
    match marshalMap json.MarshalStringMap "headers" data.Headers with
    | .error err => (some err, [])
    | .ok headersJSON =>
      match marshalMap json.MarshalAnyMap "assertions" data.Assertions with
      | .error err => (some err, [])
      | .ok assertionsJSON =>
        (db (httpStatement data timingJSON headersJSON assertionsJSON),
          [httpStatement data timingJSON headersJSON assertionsJSON])

/-- How the telemetry record `data` renders the status and the error of the probe
result `r`: the status code is nil exactly for the status 0 and is the status when
that fits the 16-bit column, the error flag is set exactly for an error text that
is not empty; so that a result with status 0 and an error text is recorded as an
error with a nil status code. -/
def RecordsStatus (r : Response) (data : HttpResponse) : Prop :=
  (data.StatusCode = none ↔ r.Status = 0) ∧
  (0 < r.Status → r.Status ≤ 32767 → data.StatusCode = some r.Status) ∧
  (data.Error = true ↔ r.Error ≠ "") ∧
  (r.Status = 0 → r.Error ≠ "" → data.Error = true ∧ data.StatusCode = none)

/-! ## Counting invocations -/

/-- A spy around a unit of work: it counts the invocations. -/
def counted {σ : Type} (operation : σ → Option GoError × σ) :
    σ × Nat → Option GoError × (σ × Nat) :=
  fun st => ((operation st.1).1, ((operation st.1).2, st.2 + 1))

/-- A unit of work whose k-th invocation (from 0) has the outcome `outcome k`;
its state is the number of invocations so far. -/
def scripted (outcome : Nat → Option GoError) : Nat → Option GoError × Nat :=
  fun k => (outcome k, k + 1)

/-- The state after `k` invocations of a unit of work, started in `s`. -/
def after {σ : Type} (operation : σ → Option GoError × σ) : Nat → σ → σ
  | 0, s => s
  | k + 1, s => after operation k (operation s).2

/-- What `Retry` hands back for the error of the last invocation: nil stays nil,
a permanent error is unpacked, any other error is returned as it is. -/
def finalError : Option GoError → Option GoError
  | none => none
  | some err => some (err.asPermanent.getD err)

/-- Why a run of the loop ended after the invocation `n`: it succeeded, or its
error was permanent, or the retries of `WithMaxRetries` were used up, or the
delegate said `Stop`. -/
def Ended {σ : Type} (operation : σ → Option GoError × σ) (delegate : Nat → Option Nat)
    (b : backOffTries) (s : σ) (n : Nat) : Prop :=
  (operation (after operation n s)).1 = none ∨
  (∃ err inner, (operation (after operation n s)).1 = some err ∧
      err.asPermanent = some inner) ∨
  n = b.maxTries - b.numTries ∨
  delegate (b.delegateCalls + n) = none

/-- The invocation `k` of a run failed with an error that is not permanent,
and the delegate granted a pause after it. -/
def Retried {σ : Type} (operation : σ → Option GoError × σ) (delegate : Nat → Option Nat)
    (b : backOffTries) (s : σ) (k : Nat) : Prop :=
  ∃ err, (operation (after operation k s)).1 = some err ∧ err.asPermanent = none ∧
    (delegate (b.delegateCalls + k)).isSome

/-- The retry of `ping.go:163` around a unit of work under the counting spy:
`backoff.Retry(op, backoff.WithMaxRetries(backoff.NewExponentialBackOff(), 3))`.
The second component of the final state is the number of invocations. -/
def retryCounted {σ : Type} (operation : σ → Option GoError × σ)
    (delegate : Nat → Option Nat) (s : σ) : Option GoError × (σ × Nat) :=
  Retry (counted operation) delegate (WithMaxRetries 3) (s, 0)

/-- A unit of work without state that fails at every invocation with the same
plain error. -/
def alwaysFails : Unit → Option GoError × Unit :=
  fun u => (some (.plain "unable to ping"), u)

/-- A request is authorized for a handler, names a region and is to be executed
on this node: the conditions under which `PingRegionHandler` reaches
`c.ShouldBindJSON`. -/
def Local (h : Handler) (c : Request) : Prop :=
  c.region ≠ "" ∧ c.GetHeader = "Basic " ++ h.Secret ∧
    (h.CloudProvider ≠ "fly" ∨ c.region = h.Region)

/-! ## Sample data -/

/-- A probe result for a target that refuses connections. -/
def refused : Response :=
  { Response.zero with
    Error := "dial tcp 192.0.2.1:80: connect: connection refused"
    Latency := 3, Timestamp := 1700000000000 }

/-- A node in region `iad` on Fly, whose telemetry client accepts every
record. -/
def sampleHandler : Handler :=
  { TimescaleClient := ⟨fun _ _ => none⟩, Secret := "s3cret", CloudProvider := "fly",
    Region := "iad" }

/-- The node `sampleHandler` with a telemetry client that rejects every
record. -/
def brokenStore : Handler :=
  { sampleHandler with TimescaleClient := ⟨fun _ _ => some (.plain "pq: connection lost")⟩ }

/-- A world in which the target refuses connections and the backoff always
grants a pause. -/
def sampleWorld : World :=
  { Http := fun _ _ => .ok refused, NextBackOff := fun _ => some 500 }

/-- A world in which every probe invocation itself fails. -/
def failingWorld : World :=
  { Http := fun _ _ => .error (.plain "unable to create req"), NextBackOff := fun _ => some 500 }

/-- The body of the scenario of the specification. -/
def samplePing : PingRequest :=
  { Headers := none, URL := "http://example.test", Method := "GET", Body := "", RequestId := 42,
    WorkspaceId := 7 }

/-- An authorized request for a region, with the sample body. -/
def sampleRequest (region : String) : Request :=
  { region := region, Authorization := some "Basic s3cret", body := some samplePing }

/-! ## The retry loop -/

/-- When `NextBackOff` grants another try, the try counter moves one step
towards the bound, which it had not reached. -/
theorem NextBackOff_some {delegate : Nat → Option Nat} {b b1 : backOffTries} {d : Nat}
    (h : b.NextBackOff delegate = (some d, b1)) :
    b1.maxTries = b.maxTries ∧ b1.numTries = b.numTries + 1 ∧ b.numTries < b.maxTries ∧
      b1.delegateCalls = b.delegateCalls + 1 ∧ delegate b.delegateCalls = some d := by
  unfold backOffTries.NextBackOff at h
  split at h
  · simp at h
  · split at h
    · simp at h
    · simp only [Prod.mk.injEq] at h
      obtain ⟨h1, h2⟩ := h
      subst h2
      simp only [true_and]
      exact ⟨by omega, h1⟩

theorem after_succ_last {σ : Type} (operation : σ → Option GoError × σ) (k : Nat) (s : σ) :
    after operation (k + 1) s = (operation (after operation k s)).2 := by
  induction k generalizing s with
  | zero => rfl
  | succ k ih => exact ih (operation s).2

/-- The shape of every run of the retry loop: it makes `n + 1` invocations with
`n` at most the number of retries left, each of the first `n` was retried, the
result is that of the last invocation, and the loop ended there for one of the
four reasons. -/
theorem retryLoop_run {σ : Type} (operation : σ → Option GoError × σ)
    (delegate : Nat → Option Nat) (b : backOffTries) (s : σ) :
    ∃ n, n ≤ b.maxTries - b.numTries ∧
      (retryLoop operation delegate b s).2 = after operation (n + 1) s ∧
      (retryLoop operation delegate b s).1
        = finalError (operation (after operation n s)).1 ∧
      (∀ k, k < n → Retried operation delegate b s k) ∧
      Ended operation delegate b s n := by
  generalize hm : b.maxTries - b.numTries = m
  induction m using Nat.strong_induction_on generalizing b s with
  | _ m ih =>
    rw [retryLoop]
    split
    · next s1 hop =>
      exact ⟨0, Nat.zero_le _, by simp [after, hop], by simp [after, hop, finalError],
        fun k hk => absurd hk (Nat.not_lt_zero k), Or.inl (by simp [after, hop])⟩
    · next err s1 hop =>
      split
      · next inner hperm =>
        exact ⟨0, Nat.zero_le _, by simp [after, hop],
          by simp [after, hop, finalError, hperm], fun k hk => absurd hk (Nat.not_lt_zero k),
          Or.inr (Or.inl ⟨err, inner, by simp [after, hop], hperm⟩)⟩
      · next hperm =>
        split
        · next b1 hn =>
          refine ⟨0, Nat.zero_le _, by simp [after, hop],
            by simp [after, hop, finalError, hperm], fun k hk => absurd hk (Nat.not_lt_zero k),
            Or.inr (Or.inr ?_)⟩
          unfold backOffTries.NextBackOff at hn
          split at hn
          · left; omega
          · split at hn
            · left; omega
            · right
              simp only [Prod.mk.injEq] at hn
              simpa using hn.1
        · next d b1 hn =>
          obtain ⟨hmax, hnum, hlt, hcalls, hdel⟩ := NextBackOff_some hn
          obtain ⟨n, hn1, hn2, hn3, hn4, hn5⟩ :=
            ih (b1.maxTries - b1.numTries) (by omega) b1 s1 rfl
          refine ⟨n + 1, by omega, ?_, ?_, ?_, ?_⟩
          · rw [hn2]; simp [after, hop]
          · rw [hn3]; simp [after, hop]
          · intro k hk
            cases k with
            | zero => exact ⟨err, by simp [after, hop], hperm, by simp [hdel]⟩
            | succ k =>
              obtain ⟨e, he1, he2, he3⟩ := hn4 k (by omega)
              refine ⟨e, by simpa [after, hop] using he1, he2, ?_⟩
              rw [hcalls] at he3
              rw [show b.delegateCalls + (k + 1) = b.delegateCalls + 1 + k by omega]
              exact he3
          · have hidx : b.delegateCalls + (n + 1) = b1.delegateCalls + n := by omega
            rcases hn5 with h5 | ⟨e, inner, h5, h5'⟩ | h5 | h5
            · exact Or.inl (by simpa [after, hop] using h5)
            · exact Or.inr (Or.inl ⟨e, inner, by simpa [after, hop] using h5, h5'⟩)
            · exact Or.inr (Or.inr (Or.inl (by omega)))
            · exact Or.inr (Or.inr (Or.inr (by rw [hidx]; exact h5)))

/-- The spy adds one to its counter at each invocation and leaves the unit of
work alone. -/
theorem after_counted {σ : Type} (operation : σ → Option GoError × σ) (k : Nat) (s : σ)
    (c : Nat) : after (counted operation) k (s, c) = (after operation k s, c + k) := by
  induction k generalizing s c with
  | zero => rfl
  | succ k ih =>
    simp only [after, counted]
    rw [ih]
    simp only [Prod.mk.injEq, true_and]
    omega

/-! ## The unit of work -/

/-- Every invocation of the unit of work calls the probe once, on the same
input. -/
theorem op_probes (h : Handler) (w : World) (req : PingRequest) (s : OpState) :
    (op h w req s).2.probes = s.probes ++ [input req] := by
  unfold op
  split
  · rfl
  · dsimp only
    split
    · split <;> simp
    · simp

/-- The unit of work fails exactly when the probe invocation returns an
error; a failed insert does not make it fail. -/
theorem op_error (h : Handler) (w : World) (req : PingRequest) (s : OpState) :
    (op h w req s).1 =
      match w.Http s.probes.length (input req) with
      | .error err => some (Errorf_unable_to_ping err)
      | .ok _ => none := by
  unfold op
  split
  · rfl
  · dsimp only
    split
    · split <;> simp
    · simp

/-- After a probe invocation without error, `res` is the probe result with the
node's region. -/
theorem op_res (h : Handler) (w : World) (req : PingRequest) (s : OpState) (r : Response)
    (hr : w.Http s.probes.length (input req) = .ok r) :
    (op h w req s).2.res = { r with Region := h.Region } := by
  unfold op
  rw [hr]
  dsimp only
  split
  · split <;> rfl
  · rfl

/-- What one invocation of the unit of work adds to the inserts: nothing when
the probe invocation fails or `RequestId` is 0, else the one telemetry record of the
probe result. -/
theorem op_inserts (h : Handler) (w : World) (req : PingRequest) (s : OpState) :
    (op h w req s).2.inserts =
      match w.Http s.probes.length (input req) with
      | .error _ => s.inserts
      | .ok r => if req.RequestId ≠ 0 then s.inserts ++ [telemetry h req r] else s.inserts := by
  unfold op
  split
  · rfl
  · dsimp only
    split
    · split <;> simp
    · simp

theorem after_op_probes (h : Handler) (w : World) (req : PingRequest) (k : Nat)
    (s : OpState) :
    (after (op h w req) k s).probes = s.probes ++ List.replicate k (input req) := by
  induction k generalizing s with
  | zero => simp [after]
  | succ k ih =>
    rw [after, ih, op_probes, List.append_assoc]
    rfl

theorem after_op_start_length (h : Handler) (w : World) (req : PingRequest) (k : Nat) :
    (after (op h w req) k OpState.start).probes.length = k := by
  rw [after_op_probes]
  simp [OpState.start]

/-- A property of the inserts that each invocation keeps holds after any number
of invocations. -/
theorem after_op_inserts (h : Handler) (w : World) (req : PingRequest)
    (P : List HttpResponse → Prop)
    (step : ∀ s, P s.inserts → P (op h w req s).2.inserts) (k : Nat) (s : OpState)
    (hs : P s.inserts) : P (after (op h w req) k s).inserts := by
  induction k generalizing s with
  | zero => exact hs
  | succ k ih => exact ih _ (step s hs)

/-! ## The handler on a request it executes -/

/-- The master description of a request that is authorized, local and
well-formed: the unit of work ran `n + 1` times with `n ≤ 3`, every run but the
last failed in the probe, and the reply is decided by the last probe
invocation. -/
theorem handler_local (h : Handler) (w : World) (c : Request) (req : PingRequest)
    (hl : Local h c) (hb : c.body = some req) :
    ∃ n, n ≤ 3 ∧
      (PingRegionHandler h w c).probes = List.replicate (n + 1) (input req) ∧
      (PingRegionHandler h w c).inserts = (after (op h w req) (n + 1) OpState.start).inserts ∧
      (∀ k, k < n → ∃ err, w.Http k (input req) = .error err) ∧
      (PingRegionHandler h w c).reply =
        match w.Http n (input req) with
        | .error _ => ⟨200, [], .H [("message", "url not reachable")]⟩
        | .ok r => ⟨200, [], .result { r with Region := h.Region }⟩ := by
  obtain ⟨hregion, hauth, hloc⟩ := hl
  obtain ⟨n, h1, h2, h3, h4, _⟩ :=
    retryLoop_run (op h w req) w.NextBackOff (WithMaxRetries 3).Reset OpState.start
  have hflag : ¬ (h.CloudProvider = "fly" ∧ c.region ≠ h.Region) := by
    rintro ⟨hf, hr⟩
    rcases hloc with hloc | hloc
    · exact hloc hf
    · exact hr hloc
  have hlen := after_op_start_length h w req n
  have hprobes : (retryLoop (op h w req) w.NextBackOff (WithMaxRetries 3).Reset
      OpState.start).2.probes = List.replicate (n + 1) (input req) := by
    rw [h2, after_op_probes]
    simp [OpState.start]
  have hres : ∀ r, w.Http n (input req) = .ok r →
      (retryLoop (op h w req) w.NextBackOff (WithMaxRetries 3).Reset
        OpState.start).2.res = { r with Region := h.Region } := by
    intro r hr
    rw [h2, after_succ_last]
    exact op_res h w req _ r (by rw [hlen]; exact hr)
  refine ⟨n, by simpa [WithMaxRetries, backOffTries.Reset] using h1, ?_, ?_, ?_, ?_⟩
  · simp only [PingRegionHandler, hregion, hauth, hflag, hb, Retry, if_false, ne_eq,
      not_true_eq_false]
    split <;> next heq => rw [← hprobes, heq]
  · simp only [PingRegionHandler, hregion, hauth, hflag, hb, Retry, if_false, ne_eq,
      not_true_eq_false]
    split <;> next heq => rw [← h2, heq]
  · intro k hk
    obtain ⟨err, he, _, _⟩ := h4 k hk
    rw [op_error, after_op_start_length] at he
    split at he
    · next e heq => exact ⟨e, heq⟩
    · cases he
  · rw [op_error, hlen] at h3
    simp only [PingRegionHandler, hregion, hauth, hflag, hb, Retry, if_false, ne_eq,
      not_true_eq_false]
    split
    · next e st heq =>
      rw [heq] at h3
      split at h3
      · rfl
      · simp [finalError] at h3
    · next st heq =>
      rw [heq] at h3
      split at h3
      · simp [finalError] at h3
      · next r hr =>
        have := hres r hr
        rw [heq] at this
        simp only at this
        rw [this]

/-- A request either reaches the retry loop, being authorized, local and
well-formed, or causes no probe and no insert at all. -/
theorem handler_cases (h : Handler) (w : World) (c : Request) :
    (Local h c ∧ ∃ req, c.body = some req) ∨
    ((PingRegionHandler h w c).probes = [] ∧ (PingRegionHandler h w c).inserts = []) := by
  by_cases hregion : c.region = ""
  · right; simp [PingRegionHandler, hregion]
  · by_cases hauth : c.GetHeader = "Basic " ++ h.Secret
    · by_cases hfly : h.CloudProvider = "fly" ∧ c.region ≠ h.Region
      · right; simp [PingRegionHandler, hregion, hauth, hfly]
      · cases hb : c.body with
        | none => right; simp [PingRegionHandler, hregion, hauth, hfly, hb]
        | some req =>
          left
          refine ⟨⟨hregion, hauth, ?_⟩, req, rfl⟩
          by_cases hf : h.CloudProvider = "fly"
          · right
            by_contra hr
            exact hfly ⟨hf, hr⟩
          · left; exact hf
    · right; simp [PingRegionHandler, hregion, hauth]

/-- Every record the handler inserts is the telemetry record of a result some
probe invocation returned. -/
theorem handler_inserts (h : Handler) (w : World) (c : Request) (data : HttpResponse)
    (hd : data ∈ (PingRegionHandler h w c).inserts) :
    ∃ req k r, c.body = some req ∧ req.RequestId ≠ 0 ∧ w.Http k (input req) = .ok r ∧
      data = telemetry h req r := by
  rcases handler_cases h w c with ⟨hl, req, hb⟩ | ⟨_, hi⟩
  · obtain ⟨n, _, _, h3, _, _⟩ := handler_local h w c req hl hb
    rw [h3] at hd
    have key := after_op_inserts h w req
      (fun l => ∀ d ∈ l, ∃ k r, req.RequestId ≠ 0 ∧ w.Http k (input req) = .ok r ∧
        d = telemetry h req r)
      (by
        intro s hs d hmem
        rw [op_inserts] at hmem
        split at hmem
        · exact hs d hmem
        · next r hr =>
          split at hmem
          · next hne =>
            rcases List.mem_append.mp hmem with hm | hm
            · exact hs d hm
            · exact ⟨_, r, hne, hr, by simpa using hm⟩
          · exact hs d hmem)
      (n + 1) OpState.start (by simp [OpState.start])
    obtain ⟨k, r, hne, hr, hdr⟩ := key data hd
    exact ⟨req, k, r, hb, hne, hr, hdr⟩
  · rw [hi] at hd
    cases hd

/-- A request whose first probe invocation returns without error: one run,
the telemetry record of that result when `RequestId` is not 0, and the result
as the reply. -/
theorem handler_first_ok (h : Handler) (w : World) (c : Request) (req : PingRequest)
    (r : Response) (hl : Local h c) (hb : c.body = some req)
    (hr : w.Http 0 (input req) = .ok r) :
    (PingRegionHandler h w c).probes = [input req] ∧
    (PingRegionHandler h w c).inserts
      = (if req.RequestId ≠ 0 then [telemetry h req r] else []) ∧
    (PingRegionHandler h w c).reply = ⟨200, [], .result { r with Region := h.Region }⟩ := by
  obtain ⟨n, _, h2, h3, h4, h5⟩ := handler_local h w c req hl hb
  have hn : n = 0 := by
    by_contra hne
    obtain ⟨err, he⟩ := h4 0 (by omega)
    rw [hr] at he
    cases he
  subst hn
  refine ⟨h2, ?_, by rw [h5, hr]⟩
  rw [h3]
  simp only [after, op_inserts]
  have hr0 : w.Http OpState.start.probes.length (input req) = .ok r := hr
  rw [hr0]
  simp [OpState.start]

/-- As long as every probe invocation fails, nothing is inserted. -/
theorem after_op_failed (h : Handler) (w : World) (req : PingRequest) (n : Nat)
    (hfail : ∀ k, k < n → ∃ err, w.Http k (input req) = .error err) :
    (after (op h w req) n OpState.start).inserts = [] := by
  induction n with
  | zero => rfl
  | succ n ih =>
    rw [after_succ_last, op_inserts, after_op_start_length]
    obtain ⟨err, he⟩ := hfail n (Nat.lt_succ_self n)
    rw [he]
    exact ih (fun k hk => hfail k (Nat.lt_succ_of_lt hk))

/-- The inserts of a request that is authorized, local and well-formed: the probe
was invoked `n + 1` times, and the only record inserted is that of the result of
the last invocation, when it returned one and `RequestId` is not 0. -/
theorem handler_run (h : Handler) (w : World) (c : Request) (req : PingRequest)
    (hl : Local h c) (hb : c.body = some req) :
    ∃ n, (PingRegionHandler h w c).probes.length = n + 1 ∧
      (PingRegionHandler h w c).reply =
        (match w.Http n (input req) with
        | .error _ => ⟨200, [], .H [("message", "url not reachable")]⟩
        | .ok r => ⟨200, [], .result { r with Region := h.Region }⟩) ∧
      (PingRegionHandler h w c).inserts =
        (match w.Http n (input req) with
        | .error _ => []
        | .ok r => if req.RequestId ≠ 0 then [telemetry h req r] else []) := by
  obtain ⟨n, _, h2, h3, h4, h5⟩ := handler_local h w c req hl hb
  refine ⟨n, by rw [h2, List.length_replicate], h5, ?_⟩
  rw [h3, after_succ_last, op_inserts, after_op_start_length, after_op_failed h w req n h4]
  split <;> simp

/-- The record built at `ping.go:127-153` renders the status and the error of
the result it is built from. -/
theorem telemetry_records (h : Handler) (req : PingRequest) (r : Response) :
    RecordsStatus r (telemetry h req r) := by
  refine ⟨?_, ?_, ?_, ?_⟩
  · by_cases hs : r.Status = 0 <;> simp [telemetry, hs]
  · intro hpos hle
    have hs : r.Status ≠ 0 := by omega
    simp only [telemetry, hs, ne_eq, not_false_eq_true, if_true, int16, Option.some.injEq]
    omega
  · simp [telemetry]
  · intro hs he
    simp [telemetry, hs, he]

/-! ## C1: replay to the requested region -/

/-- C1: an authorized request for a region other than the node's, on Fly, is
answered 202 with the header `fly-replay: region=<requested region>`; the probe
is not invoked and nothing is inserted. -/
theorem replay_to_requested_region (h : Handler) (w : World) (c : Request)
    (hregion : c.region ≠ "") (hauth : c.GetHeader = "Basic " ++ h.Secret)
    (hfly : h.CloudProvider = "fly") (hother : c.region ≠ h.Region) :
    (PingRegionHandler h w c).reply.status = 202 ∧
    (PingRegionHandler h w c).reply.headers = [("fly-replay", "region=" ++ c.region)] ∧
    (PingRegionHandler h w c).probes = [] ∧
    (PingRegionHandler h w c).inserts = [] := by
  simp [PingRegionHandler, hregion, hauth, hfly, hother]

/-- Witness of `replay_to_requested_region`: region `fra` asked of the node in
`iad`. -/
theorem replay_to_requested_region_witness :
    (PingRegionHandler sampleHandler sampleWorld (sampleRequest "fra")).reply.status = 202 ∧
    (PingRegionHandler sampleHandler sampleWorld (sampleRequest "fra")).reply.headers
      = [("fly-replay", "region=fra")] ∧
    (PingRegionHandler sampleHandler sampleWorld (sampleRequest "fra")).probes = [] ∧
    (PingRegionHandler sampleHandler sampleWorld (sampleRequest "fra")).inserts = [] :=
  replay_to_requested_region sampleHandler sampleWorld (sampleRequest "fra")
    (by decide) (by decide) (by decide) (by decide)

/-! ## C2: the unauthorized reply -/

/-- C4: an authorized, local, well-formed request is always answered with
status 200. The unit of work ran `n + 1` times; when its last run failed the
payload is `{"message": "url not reachable"}` and nothing else, when it succeeded
the payload is the probe result of that run (with the node's region). -/
theorem reply_after_retry (h : Handler) (w : World) (c : Request) (req : PingRequest)
    (hl : Local h c) (hb : c.body = some req) :
    (PingRegionHandler h w c).reply.status = 200 ∧
    ∃ n, n ≤ 3 ∧ (PingRegionHandler h w c).probes = List.replicate (n + 1) (input req) ∧
      (PingRegionHandler h w c).reply.payload =
        match w.Http n (input req) with
        | .error _ => .H [("message", "url not reachable")]
        | .ok r => .result { r with Region := h.Region } := by
  obtain ⟨n, h1, h2, _, _, h5⟩ := handler_local h w c req hl hb
  constructor
  · rw [h5]; split <;> rfl
  · refine ⟨n, h1, h2, ?_⟩
    rw [h5]; split <;> rfl

/-- Witness of `reply_after_retry`: every probe invocation fails. -/
theorem reply_after_retry_witness :
    (PingRegionHandler sampleHandler failingWorld (sampleRequest "iad")).reply.status = 200 ∧
    (PingRegionHandler sampleHandler failingWorld (sampleRequest "iad")).reply.payload
      = .H [("message", "url not reachable")] := by
  obtain ⟨hs, n, _, _, hp⟩ := reply_after_retry sampleHandler failingWorld (sampleRequest "iad")
    samplePing ⟨by decide, by decide, Or.inr (by decide)⟩ rfl
  exact ⟨hs, hp⟩

/-! ## C5: telemetry only with a request id -/

/-- C5: a request whose `requestId` is 0 causes no call of `InsertHttpResponse`,
whatever the probe does; and with a `requestId` other than 0, an invocation of
the unit of work whose probe returns without error adds exactly one call, with
`MonitorID` the decimal rendering of `requestId`. -/
theorem insert_needs_request_id (h : Handler) (w : World) (c : Request) :
    ((∀ req, c.body = some req → req.RequestId = 0) →
      (PingRegionHandler h w c).inserts = []) ∧
    (∀ req s r, req.RequestId ≠ 0 → w.Http s.probes.length (input req) = .ok r →
      ∃ data, (op h w req s).2.inserts = s.inserts ++ [data] ∧
        data.MonitorID = FormatInt req.RequestId) := by
  constructor
  · intro hz
    cases hins : (PingRegionHandler h w c).inserts with
    | nil => rfl
    | cons d l =>
      obtain ⟨req, _, _, hb, hne, _, _⟩ :=
        handler_inserts h w c d (by rw [hins]; exact List.mem_cons_self d l)
      exact absurd (hz req hb) hne
  · intro req s r hne hr
    refine ⟨telemetry h req r, ?_, rfl⟩
    rw [op_inserts, hr]
    simp [hne]

/-- Witness of `insert_needs_request_id`: the sample body with `requestId` 0
inserts nothing, and with `requestId` 42 one run inserts one record for monitor
`"42"`. -/
theorem insert_needs_request_id_witness :
    (PingRegionHandler sampleHandler sampleWorld
      ⟨"iad", some "Basic s3cret", some { samplePing with RequestId := 0 }⟩).inserts = [] ∧
    (∃ data, (op sampleHandler sampleWorld samplePing OpState.start).2.inserts
        = OpState.start.inserts ++ [data] ∧ data.MonitorID = FormatInt samplePing.RequestId) ∧
    FormatInt samplePing.RequestId = "42" :=
  ⟨(insert_needs_request_id sampleHandler sampleWorld
      ⟨"iad", some "Basic s3cret", some { samplePing with RequestId := 0 }⟩).1
      (by intro req hreq; cases hreq; rfl),
   (insert_needs_request_id sampleHandler sampleWorld (sampleRequest "iad")).2
      samplePing OpState.start refused (by decide) rfl,
   by decide⟩

/-! ## C6: a failed insert is swallowed -/

/-- C6: when the first probe invocation returns without error, the unit of
work returns nil whether or not the insert fails, so that it runs exactly once
with at most one insert, and the reply is 200 with the probe result, the same
for every telemetry client. -/
theorem insert_failure_swallowed (h : Handler) (w : World) (c : Request) (req : PingRequest)
    (r : Response) (hl : Local h c) (hb : c.body = some req)
    (hr : w.Http 0 (input req) = .ok r) :
    (op h w req OpState.start).1 = none ∧
    (PingRegionHandler h w c).probes = [input req] ∧
    (PingRegionHandler h w c).inserts.length ≤ 1 ∧
    (PingRegionHandler h w c).reply = ⟨200, [], .result { r with Region := h.Region }⟩ ∧
    ∀ store : Client,
      (PingRegionHandler { h with TimescaleClient := store } w c).reply
        = (PingRegionHandler h w c).reply := by
  have main : ∀ h1 : Handler, Local h1 c →
      (PingRegionHandler h1 w c).probes = [input req] ∧
      (PingRegionHandler h1 w c).inserts.length ≤ 1 ∧
      (PingRegionHandler h1 w c).reply = ⟨200, [], .result { r with Region := h1.Region }⟩ := by
    intro h1 hl1
    obtain ⟨k1, k2, k3⟩ := handler_first_ok h1 w c req r hl1 hb hr
    refine ⟨k1, ?_, k3⟩
    rw [k2]
    split <;> simp
  obtain ⟨m1, m2, m3⟩ := main h hl
  refine ⟨?_, m1, m2, m3, ?_⟩
  · rw [op_error]
    simp [OpState.start, hr]
  · intro store
    rw [m3, (main { h with TimescaleClient := store } hl).2.2]

/-- Witness of `insert_failure_swallowed`: a store that rejects every record. -/
theorem insert_failure_swallowed_witness :
    (PingRegionHandler brokenStore sampleWorld (sampleRequest "iad")).probes
      = [input samplePing] ∧
    (PingRegionHandler brokenStore sampleWorld (sampleRequest "iad")).reply
      = ⟨200, [], .result { refused with Region := "iad" }⟩ ∧
    (PingRegionHandler sampleHandler sampleWorld (sampleRequest "iad")).reply
      = (PingRegionHandler brokenStore sampleWorld (sampleRequest "iad")).reply :=
  ⟨(insert_failure_swallowed brokenStore sampleWorld (sampleRequest "iad") samplePing refused
      ⟨by decide, by decide, Or.inr (by decide)⟩ rfl rfl).2.1,
   (insert_failure_swallowed brokenStore sampleWorld (sampleRequest "iad") samplePing refused
      ⟨by decide, by decide, Or.inr (by decide)⟩ rfl rfl).2.2.2.1,
   (insert_failure_swallowed brokenStore sampleWorld (sampleRequest "iad") samplePing refused
      ⟨by decide, by decide, Or.inr (by decide)⟩ rfl rfl).2.2.2.2 sampleHandler.TimescaleClient⟩

/-! ## C7: status code and error flag of the telemetry record -/

/-- C7: the record persisted for a probe result renders its status and its
error. Whenever the last probe invocation of an authorized, local, well-formed
request with a `requestId` other than 0 returns the result `r`, the one record
inserted is the telemetry record of `r`; conversely every record the handler
inserts is the only one, and is the telemetry record of the result `r` that the
last probe invocation returned and that the reply carries. In that record
`StatusCode` is nil exactly when `r.Status` is 0 and is `r.Status` when
`0 < r.Status <= 32767`, and `Error` is true exactly when `r.Error` is not empty;
so a result with status 0 and an error is recorded with error true and a nil
status code. -/
theorem telemetry_status_and_error (h : Handler) (w : World) (c : Request) :
    (∀ req r, RecordsStatus r (telemetry h req r)) ∧
    (∀ req n r, Local h c → c.body = some req → req.RequestId ≠ 0 →
      (PingRegionHandler h w c).probes.length = n + 1 → w.Http n (input req) = .ok r →
      (PingRegionHandler h w c).inserts = [telemetry h req r]) ∧
    (∀ data, data ∈ (PingRegionHandler h w c).inserts →
      ∃ req n r, c.body = some req ∧ req.RequestId ≠ 0 ∧
        (PingRegionHandler h w c).probes.length = n + 1 ∧
        w.Http n (input req) = .ok r ∧
        (PingRegionHandler h w c).reply = ⟨200, [], .result { r with Region := h.Region }⟩ ∧
        (PingRegionHandler h w c).inserts = [data] ∧
        data = telemetry h req r ∧
        RecordsStatus r data) := by
  refine ⟨telemetry_records h, ?_, ?_⟩
  · intro req n r hl hb hid hlen hr
    obtain ⟨m, hm, _, hins⟩ := handler_run h w c req hl hb
    have hmn : m = n := by omega
    subst hmn
    rw [hins, hr]
    simp [hid]
  · intro data hd
    rcases handler_cases h w c with ⟨hl, req, hb⟩ | ⟨_, hi⟩
    · obtain ⟨n, hlen, hreply, hins⟩ := handler_run h w c req hl hb
      cases hr : w.Http n (input req) with
      | error err =>
        rw [hins, hr] at hd
        cases hd
      | ok r =>
        rw [hr] at hreply hins
        simp only at hreply hins
        by_cases hid : req.RequestId = 0
        · rw [hins] at hd
          simp [hid] at hd
        · have hins1 : (PingRegionHandler h w c).inserts = [telemetry h req r] := by
            rw [hins]; simp [hid]
          have hdata : data = telemetry h req r := by
            rw [hins1] at hd
            simpa using hd
          subst hdata
          exact ⟨req, n, r, hb, hid, hlen, hr, hreply, hins1, rfl, telemetry_records h req r⟩
    · rw [hi] at hd
      cases hd

/-- Witness of `telemetry_status_and_error`: the target that refuses
connections, recorded for monitor 42 with error true and a nil status code. -/
theorem telemetry_status_and_error_witness :
    (PingRegionHandler sampleHandler sampleWorld (sampleRequest "iad")).inserts
      = [telemetry sampleHandler samplePing refused] ∧
    (PingRegionHandler sampleHandler sampleWorld (sampleRequest "iad")).reply
      = ⟨200, [], .result { refused with Region := "iad" }⟩ ∧
    (telemetry sampleHandler samplePing refused).Error = true ∧
    (telemetry sampleHandler samplePing refused).StatusCode = none := by
  have hins := (telemetry_status_and_error sampleHandler sampleWorld (sampleRequest "iad")).2.1
    samplePing 0 refused ⟨by decide, by decide, Or.inr (by decide)⟩ rfl (by decide)
    (by rw [(handler_first_ok sampleHandler sampleWorld (sampleRequest "iad") samplePing refused
      ⟨by decide, by decide, Or.inr (by decide)⟩ rfl rfl).1]; rfl) rfl
  obtain ⟨req, n, r, _, _, _, hr, hreply, _, _, _⟩ :=
    (telemetry_status_and_error sampleHandler sampleWorld (sampleRequest "iad")).2.2
      (telemetry sampleHandler samplePing refused) (by rw [hins]; exact List.mem_singleton.mpr rfl)
  cases hr
  exact ⟨hins, hreply,
    ((telemetry_status_and_error sampleHandler sampleWorld (sampleRequest "iad")).1
      samplePing refused).2.2.2 rfl (by decide)⟩

/-! ## C10: local execution under the node's region -/

/-- C10: an authorized, well-formed request for a non-empty region, on a node
that is not on Fly or is in the requested region, is not replayed (status 200,
no `fly-replay` header); the probe is executed, at least once and only on the
input of the request; a returned result and every inserted record carry the
node's `Region`. -/
theorem local_execution_region (h : Handler) (w : World) (c : Request) (req : PingRequest)
    (hregion : c.region ≠ "") (hauth : c.GetHeader = "Basic " ++ h.Secret)
    (hb : c.body = some req) (hloc : h.CloudProvider ≠ "fly" ∨ c.region = h.Region) :
    (PingRegionHandler h w c).reply.status = 200 ∧
    (PingRegionHandler h w c).reply.status ≠ 202 ∧
    (PingRegionHandler h w c).reply.headers.lookup "fly-replay" = none ∧
    (PingRegionHandler h w c).probes ≠ [] ∧
    (∀ p ∈ (PingRegionHandler h w c).probes, p = input req) ∧
    (∀ res, (PingRegionHandler h w c).reply.payload = .result res → res.Region = h.Region) ∧
    (∀ data ∈ (PingRegionHandler h w c).inserts, data.Region = h.Region) := by
  obtain ⟨n, _, h2, _, _, h5⟩ := handler_local h w c req ⟨hregion, hauth, hloc⟩ hb
  have hstatus : (PingRegionHandler h w c).reply.status = 200 := by
    rw [h5]; split <;> rfl
  refine ⟨hstatus, by rw [hstatus]; decide, ?_, ?_, ?_, ?_, ?_⟩
  · rw [h5]; split <;> rfl
  · rw [h2]; simp [List.replicate]
  · intro p hp
    rw [h2] at hp
    exact List.eq_of_mem_replicate hp
  · intro res hres
    rw [h5] at hres
    split at hres
    · cases hres
    · simp only [Payload.result.injEq] at hres
      rw [← hres]
  · intro data hd
    obtain ⟨req1, k, r, _, _, _, rfl⟩ := handler_inserts h w c data hd
    rfl

/-- Witness of `local_execution_region`: region `iad` asked of the node in
`iad`. -/
theorem local_execution_region_witness :
    (PingRegionHandler sampleHandler sampleWorld (sampleRequest "iad")).reply.status = 200 ∧
    (PingRegionHandler sampleHandler sampleWorld (sampleRequest "iad")).reply.headers.lookup
      "fly-replay" = none ∧
    (PingRegionHandler sampleHandler sampleWorld (sampleRequest "iad")).probes ≠ [] ∧
    (∀ data ∈ (PingRegionHandler sampleHandler sampleWorld (sampleRequest "iad")).inserts,
      data.Region = "iad") :=
  ⟨(local_execution_region sampleHandler sampleWorld (sampleRequest "iad") samplePing
      (by decide) (by decide) rfl (Or.inr (by decide))).1,
   (local_execution_region sampleHandler sampleWorld (sampleRequest "iad") samplePing
      (by decide) (by decide) rfl (Or.inr (by decide))).2.2.1,
   (local_execution_region sampleHandler sampleWorld (sampleRequest "iad") samplePing
      (by decide) (by decide) rfl (Or.inr (by decide))).2.2.2.1,
   (local_execution_region sampleHandler sampleWorld (sampleRequest "iad") samplePing
      (by decide) (by decide) rfl (Or.inr (by decide))).2.2.2.2.2.2⟩

/-! ## The telemetry client -/

/-- The run of `retryCounted`, read off `retryLoop_run`. -/
theorem retryCounted_run {σ : Type} (operation : σ → Option GoError × σ)
    (delegate : Nat → Option Nat) (s : σ) :
    ∃ n, n ≤ 3 ∧ (retryCounted operation delegate s).2.2 = n + 1 ∧
      (retryCounted operation delegate s).2.1 = after operation (n + 1) s ∧
      (retryCounted operation delegate s).1 = finalError (operation (after operation n s)).1 ∧
      (∀ k, k < n → ∃ err, (operation (after operation k s)).1 = some err ∧
        err.asPermanent = none) ∧
      ((operation (after operation n s)).1 = none ∨
        (∃ err inner, (operation (after operation n s)).1 = some err ∧
          err.asPermanent = some inner) ∨
        n = 3 ∨ delegate n = none) := by
  obtain ⟨n, h1, h2, h3, h4, h5⟩ :=
    retryLoop_run (counted operation) delegate (WithMaxRetries 3).Reset (s, 0)
  refine ⟨n, by simpa [WithMaxRetries, backOffTries.Reset] using h1, ?_, ?_, ?_, ?_, ?_⟩
  · simp [retryCounted, Retry, h2, after_counted]
  · simp [retryCounted, Retry, h2, after_counted]
  · simpa [retryCounted, Retry, after_counted, counted] using h3
  · intro k hk
    obtain ⟨err, he1, he2, _⟩ := h4 k hk
    exact ⟨err, by simpa [after_counted, counted] using he1, he2⟩
  · simpa [Ended, after_counted, counted, WithMaxRetries, backOffTries.Reset] using h5

/-- C3, as amended: `Retry` under `WithMaxRetries(..., 3)` grants three retries,
four attempts in all. `PingRegionHandler` invokes the probe at most 4 times and
every unit of work is invoked at most 4 times; a unit
whose four invocations all fail (with errors that are not permanent, the
exponential backoff not having said `Stop`) is invoked exactly 4 times and the
error is returned; a unit that fails exactly twice and then succeeds is invoked
exactly 3 times and the outcome is the success. -/
theorem retry_four_attempts {σ : Type} (operation : σ → Option GoError × σ)
    (delegate : Nat → Option Nat) (s : σ) :
    (∀ (h : Handler) (w : World) (c : Request), (PingRegionHandler h w c).probes.length ≤ 4) ∧
    (retryCounted operation delegate s).2.2 ≤ 4 ∧
    ((∀ k, k < 4 → ∃ err, (operation (after operation k s)).1 = some err ∧
          err.asPermanent = none) →
      (∀ k, k < 3 → (delegate k).isSome) →
      (retryCounted operation delegate s).2.2 = 4 ∧
        (retryCounted operation delegate s).1 ≠ none) ∧
    ((∀ k, k < 2 → ∃ err, (operation (after operation k s)).1 = some err ∧
          err.asPermanent = none) →
      (operation (after operation 2 s)).1 = none →
      (∀ k, k < 2 → (delegate k).isSome) →
      (retryCounted operation delegate s).2.2 = 3 ∧
        (retryCounted operation delegate s).1 = none) := by
  obtain ⟨n, h1, h2, _, h4, h5, h6⟩ := retryCounted_run operation delegate s
  refine ⟨?_, by omega, ?_, ?_⟩
  · intro h w c
    rcases handler_cases h w c with ⟨hl, req, hb⟩ | ⟨hp, _⟩
    · obtain ⟨m, hm, hprobes, _⟩ := handler_local h w c req hl hb
      rw [hprobes, List.length_replicate]
      omega
    · rw [hp]
      exact Nat.zero_le 4
  · intro hfail hdel
    obtain ⟨err, he, hp⟩ := hfail n (by omega)
    have hn : n = 3 := by
      rcases h6 with h | ⟨e, inner, h, h'⟩ | h | h
      · rw [he] at h; cases h
      · rw [he] at h; cases h; rw [hp] at h'; cases h'
      · exact h
      · by_contra hne
        have := hdel n (by omega)
        rw [h] at this
        cases this
    exact ⟨by omega, by rw [h4, he]; simp [finalError]⟩
  · intro hfail hok hdel
    have hle : n ≤ 2 := by
      by_contra hgt
      obtain ⟨err, he, _⟩ := h5 2 (by omega)
      rw [hok] at he
      cases he
    have hn : n = 2 := by
      by_contra hne
      obtain ⟨err, he, hp⟩ := hfail n (by omega)
      rcases h6 with h | ⟨e, inner, h, h'⟩ | h | h
      · rw [he] at h; cases h
      · rw [he] at h; cases h; rw [hp] at h'; cases h'
      · omega
      · have := hdel n (by omega)
        rw [h] at this
        cases this
    subst hn
    exact ⟨by omega, by rw [h4, hok]; rfl⟩

/-- Witness of `retry_four_attempts`: a unit that always fails, and one that
fails twice and then succeeds, under a backoff that always grants a pause. -/
theorem retry_four_attempts_witness :
    (retryCounted alwaysFails (fun _ => some 500) ()).2.2 = 4 ∧
    (retryCounted (scripted fun k => if k < 2 then some (.plain "unable to ping") else none)
        (fun _ => some 500) 0).2.2 = 3 ∧
    (retryCounted (scripted fun k => if k < 2 then some (.plain "unable to ping") else none)
        (fun _ => some 500) 0).1 = none :=
  ⟨((retry_four_attempts alwaysFails (fun _ => some 500) ()).2.2.1
      (fun _ _ => ⟨.plain "unable to ping", rfl, rfl⟩) (fun _ _ => rfl)).1,
   ((retry_four_attempts
      (scripted fun k => if k < 2 then some (.plain "unable to ping") else none)
      (fun _ => some 500) 0).2.2.2
      (by decide) (by decide) (fun _ _ => rfl)).1,
   ((retry_four_attempts
      (scripted fun k => if k < 2 then some (.plain "unable to ping") else none)
      (fun _ => some 500) 0).2.2.2
      (by decide) (by decide) (fun _ _ => rfl)).2⟩

/-- C3, as stated, fails: a unit of work that fails on every invocation is
invoked 4 times, not 3; so is the probe by `PingRegionHandler` when every probe
invocation fails. -/
theorem retry_three_attempts_counterexample :
    (retryCounted alwaysFails (fun _ => some 500) ()).2.2 = 4 ∧
    ¬ (retryCounted alwaysFails (fun _ => some 500) ()).2.2 ≤ 3 ∧
    (PingRegionHandler sampleHandler failingWorld (sampleRequest "iad")).probes.length = 4 := by
  have h : (retryCounted alwaysFails (fun _ => some 500) ()).2.2 = 4 := by
    simp [retryCounted, Retry, backOffTries.Reset, WithMaxRetries, retryLoop, counted,
      alwaysFails, GoError.asPermanent, backOffTries.NextBackOff]
  refine ⟨h, by rw [h]; decide, ?_⟩
  simp [PingRegionHandler, sampleRequest, sampleHandler, failingWorld, Request.GetHeader,
    Retry, backOffTries.Reset, WithMaxRetries, retryLoop, op, OpState.start,
    Errorf_unable_to_ping, GoError.asPermanent, backOffTries.NextBackOff]

end Checker
